import Mathlib

/-
Verification of the optimal-execution model in src/main.py
(classes TraderUtility and OptimalTradingStrategy) against its
natural-language specification.

Real-number shallow embedding: Python floats are modelled as ℝ,
`np.sqrt` as `Real.sqrt`, `exp` as `Real.exp`, and `np.linspace(0, T, 50)`
as the list of the 50 points `T * i / 49` for `i = 0, …, 49`.
Division is the total real division of Lean (x / 0 = 0); places where the
Python code silently divides by zero are made explicit by theorems stating
that the corresponding divisor is zero while a full trajectory is still
produced.
-/

namespace OptimalExecution

/-- Embeds TraderUtility.compute_zeta:
`(alpha - b/2 + sqrt(phi*k)) / (alpha - b/2 - sqrt(phi*k))`. -/
noncomputable def compute_zeta (alpha b phi k : ℝ) : ℝ :=
  (alpha - b / 2 + Real.sqrt (phi * k)) / (alpha - b / 2 - Real.sqrt (phi * k))

/-- Number of samples produced by `np.linspace(0, time_scale, 50)`. -/
def numSamples : ℕ := 50

/-- Embeds `np.linspace(0, time_scale, 50)`: 50 uniformly spaced points,
the i-th being `time_scale * i / 49`. -/
noncomputable def timeSteps (time_scale : ℝ) : List ℝ :=
  (List.range numSamples).map (fun i : ℕ => time_scale * (i : ℝ) / 49)

/-- Body of the loop in TraderUtility.compute_inventory for one sample
time t, with the local `T_t = time_scale - t` and the two sinh terms of the
source inlined:
`R * ((zeta*e^(gamma*T_t) - e^(-gamma*T_t)) / (zeta*e^(gamma*T) - e^(-gamma*T)))`. -/
noncomputable def inventory_sample (R zeta gamma time_scale t : ℝ) : ℝ :=
  R * ((zeta * Real.exp (gamma * (time_scale - t)) -
          Real.exp (-(gamma * (time_scale - t)))) /
       (zeta * Real.exp (gamma * time_scale) - Real.exp (-(gamma * time_scale))))

/-- Embeds TraderUtility.compute_inventory: returns the pair
(res, time_steps) of the inventory values and the time grid; zeta and
gamma are computed once, as in the source. -/
noncomputable def compute_inventory (no_of_shares alpha b phi k time_scale : ℝ) :
    List ℝ × List ℝ :=
  ((timeSteps time_scale).map (fun t =>
      inventory_sample no_of_shares (compute_zeta alpha b phi k)
        (Real.sqrt (phi / k)) time_scale t),
   timeSteps time_scale)

/-- Body of the loop in TraderUtility.compute_trading_speed for one
sample time t, locals inlined:
`R * ((gamma * (zeta*e^(gamma*T_t) + e^(-gamma*T_t))) / (zeta*e^(gamma*T) - e^(-gamma*T)))`. -/
noncomputable def speed_sample (R zeta gamma time_scale t : ℝ) : ℝ :=
  R * ((gamma * (zeta * Real.exp (gamma * (time_scale - t)) +
          Real.exp (-(gamma * (time_scale - t))))) /
       (zeta * Real.exp (gamma * time_scale) - Real.exp (-(gamma * time_scale))))

/-- Embeds TraderUtility.compute_trading_speed: returns the pair
(res, time_steps) of the trading-speed values and the time grid. -/
noncomputable def compute_trading_speed (no_of_shares alpha b phi k time_scale : ℝ) :
    List ℝ × List ℝ :=
  ((timeSteps time_scale).map (fun t =>
      speed_sample no_of_shares (compute_zeta alpha b phi k)
        (Real.sqrt (phi / k)) time_scale t),
   timeSteps time_scale)

/-- The shared sinh denominator `zeta * e^(gamma*T) - e^(-gamma*T)` that both
trajectory functions divide by at every sample. -/
noncomputable def sinh_denom (alpha b phi k time_scale : ℝ) : ℝ :=
  compute_zeta alpha b phi k * Real.exp (Real.sqrt (phi / k) * time_scale) -
    Real.exp (-(Real.sqrt (phi / k) * time_scale))

/-- Spec-side formula for the inventory sample, written from the spec text:
`q(t) = R * (zeta * e^(gamma*(T-t)) - e^(-gamma*(T-t))) / (zeta * e^(gamma*T) - e^(-gamma*T))`
with `gamma = sqrt(phi/k)` and `zeta = computeZeta(alpha, b, phi, k)`. -/
noncomputable def specInventoryValue (R alpha b phi k T t : ℝ) : ℝ :=
  R * (compute_zeta alpha b phi k * Real.exp (Real.sqrt (phi / k) * (T - t)) -
        Real.exp (-(Real.sqrt (phi / k) * (T - t)))) /
    (compute_zeta alpha b phi k * Real.exp (Real.sqrt (phi / k) * T) -
        Real.exp (-(Real.sqrt (phi / k) * T)))

/-- Spec-side formula for the trading-speed sample, written from the spec
text: `v(t) = R * gamma * (zeta * e^(gamma*(T-t)) + e^(-gamma*(T-t))) / (zeta * e^(gamma*T) - e^(-gamma*T))`. -/
noncomputable def specSpeedValue (R alpha b phi k T t : ℝ) : ℝ :=
  R * Real.sqrt (phi / k) *
      (compute_zeta alpha b phi k * Real.exp (Real.sqrt (phi / k) * (T - t)) +
        Real.exp (-(Real.sqrt (phi / k) * (T - t)))) /
    (compute_zeta alpha b phi k * Real.exp (Real.sqrt (phi / k) * T) -
        Real.exp (-(Real.sqrt (phi / k) * T)))

/-- C3: for every (alpha, b, phi, k) with phi*k ≥ 0 and nonzero zeta
denominator, compute_zeta equals
`(alpha - b/2 + sqrt(phi*k)) / (alpha - b/2 - sqrt(phi*k))`. -/
theorem C3_zeta_formula (alpha b phi k : ℝ) (hpk : 0 ≤ phi * k)
    (hden : alpha - b / 2 - Real.sqrt (phi * k) ≠ 0) :
    compute_zeta alpha b phi k =
      (alpha - b / 2 + Real.sqrt (phi * k)) / (alpha - b / 2 - Real.sqrt (phi * k)) := rfl

/-- Witness for C3 at alpha = 2, b = 0, phi = 1, k = 1. -/
theorem C3_zeta_formula_witness :
    0 ≤ (1 : ℝ) * 1 ∧ ((2 : ℝ) - 0 / 2 - Real.sqrt (1 * 1)) ≠ 0 ∧
      compute_zeta 2 0 1 1 =
        ((2 : ℝ) - 0 / 2 + Real.sqrt (1 * 1)) / (2 - 0 / 2 - Real.sqrt (1 * 1)) := by
  have h1 : (0 : ℝ) ≤ 1 * 1 := by norm_num
  have h2 : ((2 : ℝ) - 0 / 2 - Real.sqrt (1 * 1)) ≠ 0 := by
    rw [show ((1 : ℝ) * 1) = 1 by norm_num, Real.sqrt_one]; norm_num
  exact ⟨h1, h2, C3_zeta_formula 2 0 1 1 h1 h2⟩

/-- C5: compute_zeta depends on phi and k only through their product:
scaling phi by c > 0 and k by 1/c leaves the result unchanged. -/
theorem C5_zeta_scaling_invariant (alpha b phi k c : ℝ) (hc : 0 < c) :
    compute_zeta alpha b (c * phi) (k / c) = compute_zeta alpha b phi k := by
  have hc0 : c ≠ 0 := ne_of_gt hc
  have hprod : c * phi * (k / c) = phi * k := by
    field_simp
    ring
  simp only [compute_zeta, hprod]

/-- Witness for C5 at alpha = 3, b = 1, phi = 5, k = 7, c = 2. -/
theorem C5_zeta_scaling_invariant_witness :
    0 < (2 : ℝ) ∧ compute_zeta 3 1 (2 * 5) (7 / 2) = compute_zeta 3 1 5 7 := by
  have hc : (0 : ℝ) < 2 := by norm_num
  exact ⟨hc, C5_zeta_scaling_invariant 3 1 5 7 2 hc⟩

lemma range_numSamples_cons :
    List.range numSamples = 0 :: List.map Nat.succ (List.range 49) := by
  rw [show numSamples = 49 + 1 from rfl, List.range_succ_eq_map]

lemma range_numSamples_concat :
    List.range numSamples = List.range 49 ++ [49] := by
  rw [show numSamples = 49 + 1 from rfl, List.range_succ]

lemma timeSteps_length (T : ℝ) : (timeSteps T).length = numSamples := by
  simp [timeSteps]

lemma timeSteps_head (T : ℝ) : (timeSteps T).head? = some 0 := by
  rw [timeSteps, range_numSamples_cons]
  simp

lemma timeSteps_getLast (T : ℝ) : (timeSteps T).getLast? = some T := by
  rw [timeSteps, range_numSamples_concat, List.map_append, List.map_cons, List.map_nil,
    List.getLast?_append_cons, List.getLast?_singleton]
  norm_num

lemma sqrt_one_mul_one : Real.sqrt ((1 : ℝ) * 1) = 1 := by
  rw [show ((1 : ℝ) * 1) = 1 by norm_num, Real.sqrt_one]

lemma sqrt_one_div_one : Real.sqrt ((1 : ℝ) / 1) = 1 := by
  rw [show ((1 : ℝ) / 1) = 1 by norm_num, Real.sqrt_one]

lemma zeta_concrete : compute_zeta 2 0 1 1 = 3 := by
  rw [compute_zeta, sqrt_one_mul_one]
  norm_num

lemma zden_concrete_ne : ((2 : ℝ) - 0 / 2 - Real.sqrt (1 * 1)) ≠ 0 := by
  rw [sqrt_one_mul_one]
  norm_num

lemma sinh_denom_concrete : sinh_denom 2 0 1 1 1 = 3 * Real.exp 1 - Real.exp (-1) := by
  rw [sinh_denom, zeta_concrete, sqrt_one_div_one]
  norm_num

lemma sinh_denom_concrete_pos : 0 < 3 * Real.exp 1 - Real.exp (-1) := by
  have h1 : Real.exp (-1) < Real.exp 1 := Real.exp_lt_exp.mpr (by norm_num)
  have h2 : 0 < Real.exp 1 := Real.exp_pos 1
  nlinarith

lemma sinh_denom_concrete_ne : sinh_denom 2 0 1 1 1 ≠ 0 := by
  rw [sinh_denom_concrete]
  exact ne_of_gt sinh_denom_concrete_pos

/-- Pointwise agreement of the compute_inventory loop body with the spec
formula for q(t). -/
lemma inventory_sample_eq_spec (R alpha b phi k T t : ℝ) :
    inventory_sample R (compute_zeta alpha b phi k) (Real.sqrt (phi / k)) T t
      = specInventoryValue R alpha b phi k T t := by
  rw [inventory_sample, specInventoryValue]
  ring

/-- Pointwise agreement of the compute_trading_speed loop body with the
spec formula for v(t). -/
lemma speed_sample_eq_spec (R alpha b phi k T t : ℝ) :
    speed_sample R (compute_zeta alpha b phi k) (Real.sqrt (phi / k)) T t
      = specSpeedValue R alpha b phi k T t := by
  rw [speed_sample, specSpeedValue]
  ring

/-- C1: with phi > 0, k > 0 and both denominators nonzero,
compute_inventory returns exactly 50 samples on the uniform grid
`t_i = T * i / 49` spanning [0, T] inclusive, and the i-th value equals
`R * (zeta*e^(gamma*(T-t)) - e^(-gamma*(T-t))) / (zeta*e^(gamma*T) - e^(-gamma*T))`
with `gamma = sqrt(phi/k)` and `zeta = compute_zeta alpha b phi k`. -/
theorem C1_inventory_trajectory (R alpha b phi k T : ℝ) (hphi : 0 < phi) (hk : 0 < k)
    (hzden : alpha - b / 2 - Real.sqrt (phi * k) ≠ 0)
    (hsden : sinh_denom alpha b phi k T ≠ 0) :
    (compute_inventory R alpha b phi k T).1.length = numSamples ∧
    (compute_inventory R alpha b phi k T).2 =
      (List.range numSamples).map (fun i : ℕ => T * (i : ℝ) / 49) ∧
    (compute_inventory R alpha b phi k T).2.head? = some 0 ∧
    (compute_inventory R alpha b phi k T).2.getLast? = some T ∧
    (compute_inventory R alpha b phi k T).1 =
      (List.range numSamples).map (fun i : ℕ => specInventoryValue R alpha b phi k T (T * (i : ℝ) / 49)) := by
  refine ⟨?_, rfl, timeSteps_head T, timeSteps_getLast T, ?_⟩
  · show ((timeSteps T).map _).length = numSamples
    rw [List.length_map, timeSteps_length]
  · show (timeSteps T).map _ = _
    have hfun : inventory_sample R (compute_zeta alpha b phi k)
        (Real.sqrt (phi / k)) T = fun t => specInventoryValue R alpha b phi k T t := by
      funext t
      exact inventory_sample_eq_spec R alpha b phi k T t
    rw [hfun, timeSteps, List.map_map]
    rfl

/-- Witness for C1 at R = 100, alpha = 2, b = 0, phi = 1, k = 1, T = 1. -/
theorem C1_inventory_trajectory_witness :
    0 < (1 : ℝ) ∧ 0 < (1 : ℝ) ∧ ((2 : ℝ) - 0 / 2 - Real.sqrt (1 * 1)) ≠ 0 ∧
      sinh_denom 2 0 1 1 1 ≠ 0 ∧
      ((compute_inventory 100 2 0 1 1 1).1.length = numSamples ∧
       (compute_inventory 100 2 0 1 1 1).2 =
         (List.range numSamples).map (fun i : ℕ => 1 * (i : ℝ) / 49) ∧
       (compute_inventory 100 2 0 1 1 1).2.head? = some 0 ∧
       (compute_inventory 100 2 0 1 1 1).2.getLast? = some 1 ∧
       (compute_inventory 100 2 0 1 1 1).1 =
         (List.range numSamples).map (fun i : ℕ => specInventoryValue 100 2 0 1 1 1 (1 * (i : ℝ) / 49))) :=
  ⟨by norm_num, by norm_num, zden_concrete_ne, sinh_denom_concrete_ne,
   C1_inventory_trajectory 100 2 0 1 1 1 (by norm_num) (by norm_num)
     zden_concrete_ne sinh_denom_concrete_ne⟩

/-- C2: with phi > 0, k > 0 and nonzero denominator, compute_trading_speed
returns its values on the same 50-sample uniform grid over [0, T], the
i-th value being
`R * gamma * (zeta*e^(gamma*(T-t)) + e^(-gamma*(T-t))) / (zeta*e^(gamma*T) - e^(-gamma*T))`. -/
theorem C2_trading_speed_trajectory (R alpha b phi k T : ℝ) (hphi : 0 < phi) (hk : 0 < k)
    (hsden : sinh_denom alpha b phi k T ≠ 0) :
    (compute_trading_speed R alpha b phi k T).1.length = numSamples ∧
    (compute_trading_speed R alpha b phi k T).2 =
      (List.range numSamples).map (fun i : ℕ => T * (i : ℝ) / 49) ∧
    (compute_trading_speed R alpha b phi k T).2.head? = some 0 ∧
    (compute_trading_speed R alpha b phi k T).2.getLast? = some T ∧
    (compute_trading_speed R alpha b phi k T).1 =
      (List.range numSamples).map (fun i : ℕ => specSpeedValue R alpha b phi k T (T * (i : ℝ) / 49)) := by
  refine ⟨?_, rfl, timeSteps_head T, timeSteps_getLast T, ?_⟩
  · show ((timeSteps T).map _).length = numSamples
    rw [List.length_map, timeSteps_length]
  · show (timeSteps T).map _ = _
    have hfun : speed_sample R (compute_zeta alpha b phi k)
        (Real.sqrt (phi / k)) T = fun t => specSpeedValue R alpha b phi k T t := by
      funext t
      exact speed_sample_eq_spec R alpha b phi k T t
    rw [hfun, timeSteps, List.map_map]
    rfl

/-- Witness for C2 at R = 100, alpha = 2, b = 0, phi = 1, k = 1, T = 1. -/
theorem C2_trading_speed_trajectory_witness :
    0 < (1 : ℝ) ∧ 0 < (1 : ℝ) ∧ sinh_denom 2 0 1 1 1 ≠ 0 ∧
      ((compute_trading_speed 100 2 0 1 1 1).1.length = numSamples ∧
       (compute_trading_speed 100 2 0 1 1 1).2 =
         (List.range numSamples).map (fun i : ℕ => 1 * (i : ℝ) / 49) ∧
       (compute_trading_speed 100 2 0 1 1 1).2.head? = some 0 ∧
       (compute_trading_speed 100 2 0 1 1 1).2.getLast? = some 1 ∧
       (compute_trading_speed 100 2 0 1 1 1).1 =
         (List.range numSamples).map (fun i : ℕ => specSpeedValue 100 2 0 1 1 1 (1 * (i : ℝ) / 49))) :=
  ⟨by norm_num, by norm_num, sinh_denom_concrete_ne,
   C2_trading_speed_trajectory 100 2 0 1 1 1 (by norm_num) (by norm_num)
     sinh_denom_concrete_ne⟩

/-- C4: with phi > 0, k > 0 and nonzero shared denominator, the first
inventory sample (at t = 0) equals R. -/
theorem C4_initial_inventory (R alpha b phi k T : ℝ) (hphi : 0 < phi) (hk : 0 < k)
    (hsden : sinh_denom alpha b phi k T ≠ 0) :
    (compute_inventory R alpha b phi k T).1.head? = some R := by
  simp only [sinh_denom] at hsden
  show ((timeSteps T).map _).head? = some R
  rw [timeSteps, range_numSamples_cons]
  simp only [List.map_cons, List.head?_cons, Nat.cast_zero, mul_zero, zero_div,
    Option.some.injEq]
  rw [inventory_sample, sub_zero, div_self hsden, mul_one]

/-- Witness for C4 at R = 100, alpha = 2, b = 0, phi = 1, k = 1, T = 1. -/
theorem C4_initial_inventory_witness :
    0 < (1 : ℝ) ∧ 0 < (1 : ℝ) ∧ sinh_denom 2 0 1 1 1 ≠ 0 ∧
      (compute_inventory 100 2 0 1 1 1).1.head? = some 100 :=
  ⟨by norm_num, by norm_num, sinh_denom_concrete_ne,
   C4_initial_inventory 100 2 0 1 1 1 (by norm_num) (by norm_num) sinh_denom_concrete_ne⟩

lemma compute_inventory_values_length (R alpha b phi k T : ℝ) :
    (compute_inventory R alpha b phi k T).1.length = numSamples := by
  show ((timeSteps T).map _).length = numSamples
  rw [List.length_map, timeSteps_length]

lemma compute_inventory_times_length (R alpha b phi k T : ℝ) :
    (compute_inventory R alpha b phi k T).2.length = numSamples := timeSteps_length T

lemma compute_trading_speed_values_length (R alpha b phi k T : ℝ) :
    (compute_trading_speed R alpha b phi k T).1.length = numSamples := by
  show ((timeSteps T).map _).length = numSamples
  rw [List.length_map, timeSteps_length]

lemma compute_trading_speed_times_length (R alpha b phi k T : ℝ) :
    (compute_trading_speed R alpha b phi k T).2.length = numSamples := timeSteps_length T

/-- C6 counterexample: at phi = -1 < 0 (with b = 1/1000, k = 1/100) both
evaluator functions still produce a complete 50-sample trajectory; the
code contains no InvalidParameter check, so no error precedes the
trajectory computation. -/
theorem C6_counterexample :
    (compute_inventory 100 1000000000 (1 / 1000) (-1) (1 / 100) 1).1.length = numSamples ∧
    (compute_trading_speed 100 1000000000 (1 / 1000) (-1) (1 / 100) 1).1.length = numSamples :=
  ⟨compute_inventory_values_length 100 1000000000 (1 / 1000) (-1) (1 / 100) 1,
   compute_trading_speed_values_length 100 1000000000 (1 / 1000) (-1) (1 / 100) 1⟩

/-- C6 amended: compute_inventory and compute_trading_speed perform no
parameter validation; even for phi < 0 or k < 0 they return complete
50-sample value and time lists (NaN-valued in floating point), and no
InvalidParameter error exists anywhere in the code. -/
theorem C6_no_parameter_validation (R alpha b phi k T : ℝ) (h : phi < 0 ∨ k < 0) :
    (compute_inventory R alpha b phi k T).1.length = numSamples ∧
    (compute_inventory R alpha b phi k T).2.length = numSamples ∧
    (compute_trading_speed R alpha b phi k T).1.length = numSamples ∧
    (compute_trading_speed R alpha b phi k T).2.length = numSamples :=
  ⟨compute_inventory_values_length R alpha b phi k T,
   compute_inventory_times_length R alpha b phi k T,
   compute_trading_speed_values_length R alpha b phi k T,
   compute_trading_speed_times_length R alpha b phi k T⟩

/-- Witness for the amended C6 at phi = -1, k = 1. -/
theorem C6_no_parameter_validation_witness :
    ((-1 : ℝ) < 0 ∨ (1 : ℝ) < 0) ∧
      ((compute_inventory 100 1000000000 0 (-1) 1 1).1.length = numSamples ∧
       (compute_inventory 100 1000000000 0 (-1) 1 1).2.length = numSamples ∧
       (compute_trading_speed 100 1000000000 0 (-1) 1 1).1.length = numSamples ∧
       (compute_trading_speed 100 1000000000 0 (-1) 1 1).2.length = numSamples) :=
  ⟨Or.inl (by norm_num),
   C6_no_parameter_validation 100 1000000000 0 (-1) 1 1 (Or.inl (by norm_num))⟩

/-- C7 counterexample: at alpha = 1, b = 0, phi = 1, k = 1 the zeta
denominator `alpha - b/2 - sqrt(phi*k)` is exactly zero, yet both
evaluator functions still return a complete 50-sample trajectory; the
code has no SingularDenominator failure path. -/
theorem C7_counterexample :
    ((1 : ℝ) - 0 / 2 - Real.sqrt (1 * 1)) = 0 ∧
    (compute_inventory 100 1 0 1 1 1).1.length = numSamples ∧
    (compute_trading_speed 100 1 0 1 1 1).1.length = numSamples :=
  ⟨by rw [sqrt_one_mul_one]; norm_num,
   compute_inventory_values_length 100 1 0 1 1 1,
   compute_trading_speed_values_length 100 1 0 1 1 1⟩

/-- C7 amended: the code defines no SingularDenominator failure; even
when the shared sinh denominator or the zeta denominator is exactly
zero, both evaluator functions return a complete 50-sample trajectory
(±infinity/NaN-valued in floating point) instead of signalling. -/
theorem C7_singular_denominator_not_signalled (R alpha b phi k T : ℝ)
    (h : sinh_denom alpha b phi k T = 0 ∨ alpha - b / 2 - Real.sqrt (phi * k) = 0) :
    (compute_inventory R alpha b phi k T).1.length = numSamples ∧
    (compute_trading_speed R alpha b phi k T).1.length = numSamples :=
  ⟨compute_inventory_values_length R alpha b phi k T,
   compute_trading_speed_values_length R alpha b phi k T⟩

/-- Witness for the amended C7 at alpha = 1, b = 0, phi = 1, k = 1. -/
theorem C7_singular_denominator_not_signalled_witness :
    (sinh_denom 1 0 1 1 1 = 0 ∨ ((1 : ℝ) - 0 / 2 - Real.sqrt (1 * 1)) = 0) ∧
      ((compute_inventory 100 1 0 1 1 1).1.length = numSamples ∧
       (compute_trading_speed 100 1 0 1 1 1).1.length = numSamples) :=
  ⟨Or.inr (by rw [sqrt_one_mul_one]; norm_num),
   C7_singular_denominator_not_signalled 100 1 0 1 1 1
     (Or.inr (by rw [sqrt_one_mul_one]; norm_num))⟩

lemma zeta_phi_zero (alpha b k : ℝ) (hab : alpha - b / 2 ≠ 0) :
    compute_zeta alpha b 0 k = 1 := by
  rw [compute_zeta, zero_mul, Real.sqrt_zero, add_zero, sub_zero, div_self hab]

lemma sinh_denom_phi_zero (alpha b k T : ℝ) (hab : alpha - b / 2 ≠ 0) :
    sinh_denom alpha b 0 k T = 0 := by
  rw [sinh_denom, zeta_phi_zero alpha b k hab, zero_div, Real.sqrt_zero, zero_mul,
    neg_zero, Real.exp_zero, one_mul, sub_self]

/-- C8 counterexample: at phi = 0 (gamma = 0) with alpha = 2, b = 0,
k = 1 the shared sinh denominator is exactly zero, yet both evaluator
functions proceed to divide by it at every sample and return a complete
50-sample trajectory: the gamma = 0 case is a silent division by zero,
with no UndefinedLimit condition. -/
theorem C8_counterexample :
    sinh_denom 2 0 0 1 1 = 0 ∧
    (compute_inventory 100 2 0 0 1 1).1.length = numSamples ∧
    (compute_trading_speed 100 2 0 0 1 1).1.length = numSamples :=
  ⟨sinh_denom_phi_zero 2 0 1 1 (by norm_num),
   compute_inventory_values_length 100 2 0 0 1 1,
   compute_trading_speed_values_length 100 2 0 0 1 1⟩

/-- C8 amended: for phi = 0 (the gamma = 0 limiting case) with k > 0 and
alpha - b/2 ≠ 0, the shared sinh denominator is exactly zero and both
functions silently divide by it at every sample, still returning a
complete 50-sample trajectory; every sample is the division-by-zero
value (NaN in floating point, 0 under the total real division used
here), not the documented limiting schedule, and no UndefinedLimit
condition exists in the code. -/
theorem C8_gamma_zero_silent_division_by_zero (R alpha b k T : ℝ) (hk : 0 < k)
    (hab : alpha - b / 2 ≠ 0) :
    sinh_denom alpha b 0 k T = 0 ∧
    (compute_inventory R alpha b 0 k T).1.length = numSamples ∧
    (compute_trading_speed R alpha b 0 k T).1.length = numSamples ∧
    (∀ x ∈ (compute_inventory R alpha b 0 k T).1, x = 0) ∧
    (∀ x ∈ (compute_trading_speed R alpha b 0 k T).1, x = 0) := by
  refine ⟨sinh_denom_phi_zero alpha b k T hab,
    compute_inventory_values_length R alpha b 0 k T,
    compute_trading_speed_values_length R alpha b 0 k T, ?_, ?_⟩
  · intro x hx
    simp only [compute_inventory, List.mem_map] at hx
    obtain ⟨t, ht, rfl⟩ := hx
    rw [inventory_sample, zeta_phi_zero alpha b k hab, zero_div, Real.sqrt_zero]
    simp
  · intro x hx
    simp only [compute_trading_speed, List.mem_map] at hx
    obtain ⟨t, ht, rfl⟩ := hx
    rw [speed_sample, zeta_phi_zero alpha b k hab, zero_div, Real.sqrt_zero]
    simp

/-- Witness for the amended C8 at R = 100, alpha = 2, b = 0, k = 1, T = 1. -/
theorem C8_gamma_zero_silent_division_by_zero_witness :
    0 < (1 : ℝ) ∧ ((2 : ℝ) - 0 / 2 ≠ 0) ∧
      (sinh_denom 2 0 0 1 1 = 0 ∧
       (compute_inventory 100 2 0 0 1 1).1.length = numSamples ∧
       (compute_trading_speed 100 2 0 0 1 1).1.length = numSamples ∧
       (∀ x ∈ (compute_inventory 100 2 0 0 1 1).1, x = 0) ∧
       (∀ x ∈ (compute_trading_speed 100 2 0 0 1 1).1, x = 0)) :=
  ⟨by norm_num, by norm_num,
   C8_gamma_zero_silent_division_by_zero 100 2 0 1 1 (by norm_num) (by norm_num)⟩

/-- Configuration record read by OptimalTradingStrategy._init_params from
the "model" section of conf.json: `b`, `k` and the list of phi values.
`timeHorizon` is listed by the spec as part of the configuration
interface, but the orchestrator never reads it (the source passes no
time_scale argument, so the default 1 is always used). -/
structure ModelConfig where
  b : ℝ
  k : ℝ
  phi : List ℝ
  timeHorizon : ℝ

/-- Python dict insertion `d[key] = val` on an insertion-ordered
association list: replaces the value at an existing key in place,
otherwise appends the new key at the end. -/
noncomputable def dinsert {α : Type} (key : ℝ) (val : α) : List (ℝ × α) → List (ℝ × α)
  | [] => [(key, val)]
  | e :: rest => if e.1 = key then (key, val) :: rest else e :: dinsert key val rest

/-- Python dict lookup `d[key]` on an association list. -/
noncomputable def dlookup {α : Type} (key : ℝ) : List (ℝ × α) → Option α
  | [] => none
  | e :: rest => if e.1 = key then some e.2 else dlookup key rest

/-- Embeds OptimalTradingStrategy._gen_inventory: for each p in the
configured phi list, inserts the result of
`TraderUtility.compute_inventory(100, 1000000000, b, p, k)` (with the
default time_scale = 1) under key p. -/
noncomputable def gen_inventory (cfg : ModelConfig) : List (ℝ × (List ℝ × List ℝ)) :=
  cfg.phi.foldl (fun m p => dinsert p (compute_inventory 100 1000000000 cfg.b p cfg.k 1) m) []

/-- Embeds OptimalTradingStrategy._gen_trading_speed: for each p in the
configured phi list, inserts the result of
`TraderUtility.compute_trading_speed(100, 1000000000, b, p, k)` under
key p. -/
noncomputable def gen_trading_speed (cfg : ModelConfig) : List (ℝ × (List ℝ × List ℝ)) :=
  cfg.phi.foldl (fun m p => dinsert p (compute_trading_speed 100 1000000000 cfg.b p cfg.k 1) m) []

lemma mem_keys_dinsert {α : Type} (a key : ℝ) (v : α) (l : List (ℝ × α)) :
    a ∈ (dinsert key v l).map Prod.fst ↔ a = key ∨ a ∈ l.map Prod.fst := by
  induction l with
  | nil => simp [dinsert]
  | cons e rest ih =>
    simp only [dinsert]
    by_cases h : e.1 = key
    · rw [if_pos h]
      simp only [List.map_cons, List.mem_cons, h]
      tauto
    · rw [if_neg h]
      simp only [List.map_cons, List.mem_cons, ih]
      tauto

lemma keys_nodup_dinsert {α : Type} (key : ℝ) (v : α) {l : List (ℝ × α)}
    (h : (l.map Prod.fst).Nodup) : ((dinsert key v l).map Prod.fst).Nodup := by
  induction l with
  | nil => simp [dinsert]
  | cons e rest ih =>
    simp only [List.map_cons, List.nodup_cons] at h
    simp only [dinsert]
    by_cases he : e.1 = key
    · rw [if_pos he]
      simp only [List.map_cons, List.nodup_cons]
      exact ⟨he ▸ h.1, h.2⟩
    · rw [if_neg he]
      simp only [List.map_cons, List.nodup_cons]
      refine ⟨?_, ih h.2⟩
      intro hmem
      rcases (mem_keys_dinsert e.1 key v rest).mp hmem with h1 | h2
      · exact he h1
      · exact h.1 h2

lemma dinsert_forall {α : Type} (P : ℝ × α → Prop) (key : ℝ) (v : α) (hv : P (key, v)) :
    ∀ (l : List (ℝ × α)), (∀ e ∈ l, P e) → ∀ e ∈ dinsert key v l, P e := by
  intro l
  induction l with
  | nil =>
    intro _ x hx
    simp only [dinsert, List.mem_singleton] at hx
    exact hx ▸ hv
  | cons e rest ih =>
    intro hl x hx
    simp only [dinsert] at hx
    by_cases he : e.1 = key
    · rw [if_pos he] at hx
      rcases List.mem_cons.mp hx with h1 | h2
      · exact h1 ▸ hv
      · exact hl x (List.mem_cons_of_mem e h2)
    · rw [if_neg he] at hx
      rcases List.mem_cons.mp hx with h1 | h2
      · exact h1 ▸ hl e (List.mem_cons_self e rest)
      · exact ih (fun y hy => hl y (List.mem_cons_of_mem e hy)) x h2

lemma dlookup_eq_of_mem {α : Type} (f : ℝ → α) :
    ∀ (l : List (ℝ × α)), (∀ e ∈ l, e.2 = f e.1) → ∀ a, a ∈ l.map Prod.fst →
      dlookup a l = some (f a) := by
  intro l
  induction l with
  | nil =>
    intro _ a ha
    simp at ha
  | cons e rest ih =>
    intro hl a ha
    simp only [dlookup]
    by_cases he : e.1 = a
    · rw [if_pos he]
      rw [hl e (List.mem_cons_self e rest), he]
    · rw [if_neg he]
      apply ih (fun y hy => hl y (List.mem_cons_of_mem e hy))
      simp only [List.map_cons, List.mem_cons] at ha
      rcases ha with h1 | h2
      · exact absurd h1.symm he
      · exact h2

lemma countP_eq_one_of_keys_nodup {α : Type} :
    ∀ (l : List (ℝ × α)), ((l.map Prod.fst).Nodup) → ∀ a, a ∈ l.map Prod.fst →
      l.countP (fun e => decide (e.1 = a)) = 1 := by
  intro l
  induction l with
  | nil =>
    intro _ a ha
    simp at ha
  | cons e rest ih =>
    intro hnd a ha
    simp only [List.map_cons, List.nodup_cons] at hnd
    rw [List.countP_cons]
    by_cases he : e.1 = a
    · have hnot : a ∉ rest.map Prod.fst := he ▸ hnd.1
      have hzero : rest.countP (fun x => decide (x.1 = a)) = 0 := by
        rw [List.countP_eq_zero]
        intro x hx
        simp only [decide_eq_true_eq]
        intro hxa
        exact hnot (hxa ▸ List.mem_map_of_mem Prod.fst hx)
      simp [hzero, he]
    · have ha2 : a ∈ rest.map Prod.fst := by
        simp only [List.map_cons, List.mem_cons] at ha
        rcases ha with h1 | h2
        · exact absurd h1.symm he
        · exact h2
      rw [ih hnd.2 a ha2]
      simp [he]

lemma foldl_dinsert_invariant {α : Type} (f : ℝ → α) :
    ∀ (phis : List ℝ) (acc : List (ℝ × α)),
      ((acc.map Prod.fst).Nodup) → (∀ e ∈ acc, e.2 = f e.1) →
      (((phis.foldl (fun m p => dinsert p (f p) m) acc).map Prod.fst).Nodup) ∧
      (∀ e ∈ phis.foldl (fun m p => dinsert p (f p) m) acc, e.2 = f e.1) ∧
      (∀ a, a ∈ phis ∨ a ∈ acc.map Prod.fst →
        a ∈ (phis.foldl (fun m p => dinsert p (f p) m) acc).map Prod.fst) := by
  intro phis
  induction phis with
  | nil =>
    intro acc hnd hval
    refine ⟨hnd, hval, ?_⟩
    intro a ha
    rcases ha with h | h
    · simp at h
    · simpa using h
  | cons p rest ih =>
    intro acc hnd hval
    simp only [List.foldl_cons]
    have hnd2 := keys_nodup_dinsert p (f p) hnd
    have hval2 := dinsert_forall (fun e => e.2 = f e.1) p (f p) rfl acc hval
    obtain ⟨h1, h2, h3⟩ := ih (dinsert p (f p) acc) hnd2 hval2
    refine ⟨h1, h2, ?_⟩
    intro a ha
    rcases ha with h | h
    · rcases List.mem_cons.mp h with h4 | h4
      · exact h3 a (Or.inr ((mem_keys_dinsert a p (f p) acc).mpr (Or.inl h4)))
      · exact h3 a (Or.inl h4)
    · exact h3 a (Or.inr ((mem_keys_dinsert a p (f p) acc).mpr (Or.inr h)))

lemma build_lookup {α : Type} (f : ℝ → α) (phis : List ℝ) (a : ℝ) (ha : a ∈ phis) :
    (phis.foldl (fun m p => dinsert p (f p) m) []).countP (fun e => decide (e.1 = a)) = 1 ∧
    dlookup a (phis.foldl (fun m p => dinsert p (f p) m) []) = some (f a) := by
  obtain ⟨hnd, hval, hmem⟩ := foldl_dinsert_invariant f phis [] (by simp) (by simp)
  have hka := hmem a (Or.inl ha)
  exact ⟨countP_eq_one_of_keys_nodup _ hnd a hka, dlookup_eq_of_mem f _ hval a hka⟩

/-- C9: after the sweep, for every phi in the configured set both the
inventory mapping and the trading-speed mapping contain exactly one
entry keyed by phi, and the two entries carry element-wise equal time
axes (both are the 50-sample grid over [0, 1]). -/
theorem C9_sweep_invariant (cfg : ModelConfig) (phi : ℝ) (hphi : phi ∈ cfg.phi) :
    (gen_inventory cfg).countP (fun e => decide (e.1 = phi)) = 1 ∧
    (gen_trading_speed cfg).countP (fun e => decide (e.1 = phi)) = 1 ∧
    ∃ inv spd,
      dlookup phi (gen_inventory cfg) = some inv ∧
      dlookup phi (gen_trading_speed cfg) = some spd ∧
      inv.2 = spd.2 ∧ inv.2 = timeSteps 1 := by
  obtain ⟨hc1, hl1⟩ :=
    build_lookup (fun p => compute_inventory 100 1000000000 cfg.b p cfg.k 1) cfg.phi phi hphi
  obtain ⟨hc2, hl2⟩ :=
    build_lookup (fun p => compute_trading_speed 100 1000000000 cfg.b p cfg.k 1) cfg.phi phi hphi
  exact ⟨hc1, hc2, compute_inventory 100 1000000000 cfg.b phi cfg.k 1,
    compute_trading_speed 100 1000000000 cfg.b phi cfg.k 1, hl1, hl2, rfl, rfl⟩

/-- Concrete configuration used by the C9 and C10 witnesses; its
timeHorizon field is 5, not 1, showing that it has no influence. -/
noncomputable def cfgExample : ModelConfig := ⟨0, 1, [1, 2], 5⟩

/-- Witness for C9 on cfgExample at phi = 1. -/
theorem C9_sweep_invariant_witness :
    (1 : ℝ) ∈ cfgExample.phi ∧
      ((gen_inventory cfgExample).countP (fun e => decide (e.1 = 1)) = 1 ∧
       (gen_trading_speed cfgExample).countP (fun e => decide (e.1 = 1)) = 1 ∧
       ∃ inv spd,
         dlookup 1 (gen_inventory cfgExample) = some inv ∧
         dlookup 1 (gen_trading_speed cfgExample) = some spd ∧
         inv.2 = spd.2 ∧ inv.2 = timeSteps 1) := by
  have hmem : (1 : ℝ) ∈ cfgExample.phi := by simp [cfgExample]
  exact ⟨hmem, C9_sweep_invariant cfgExample 1 hmem⟩

/-- C10: for every phi in the configured set, the orchestrator stores
exactly the Model Evaluator results for R = 100, alpha = 1000000000 and
time horizon 1, reading only b, k and the phi set from the
configuration; the stored time grid spans [0, 1] regardless of the
configured timeHorizon field, which is never read. -/
theorem C10_orchestrator_fixed_parameters (cfg : ModelConfig) (phi : ℝ)
    (hphi : phi ∈ cfg.phi) :
    dlookup phi (gen_inventory cfg) =
      some (compute_inventory 100 1000000000 cfg.b phi cfg.k 1) ∧
    dlookup phi (gen_trading_speed cfg) =
      some (compute_trading_speed 100 1000000000 cfg.b phi cfg.k 1) ∧
    (compute_inventory 100 1000000000 cfg.b phi cfg.k 1).2.head? = some 0 ∧
    (compute_inventory 100 1000000000 cfg.b phi cfg.k 1).2.getLast? = some 1 ∧
    (compute_trading_speed 100 1000000000 cfg.b phi cfg.k 1).2.head? = some 0 ∧
    (compute_trading_speed 100 1000000000 cfg.b phi cfg.k 1).2.getLast? = some 1 := by
  obtain ⟨hc1, hl1⟩ :=
    build_lookup (fun p => compute_inventory 100 1000000000 cfg.b p cfg.k 1) cfg.phi phi hphi
  obtain ⟨hc2, hl2⟩ :=
    build_lookup (fun p => compute_trading_speed 100 1000000000 cfg.b p cfg.k 1) cfg.phi phi hphi
  exact ⟨hl1, hl2, timeSteps_head 1, timeSteps_getLast 1, timeSteps_head 1,
    timeSteps_getLast 1⟩

/-- Witness for C10 on cfgExample (whose timeHorizon is 5) at phi = 1. -/
theorem C10_orchestrator_fixed_parameters_witness :
    (1 : ℝ) ∈ cfgExample.phi ∧
      (dlookup 1 (gen_inventory cfgExample) =
         some (compute_inventory 100 1000000000 cfgExample.b 1 cfgExample.k 1) ∧
       dlookup 1 (gen_trading_speed cfgExample) =
         some (compute_trading_speed 100 1000000000 cfgExample.b 1 cfgExample.k 1) ∧
       (compute_inventory 100 1000000000 cfgExample.b 1 cfgExample.k 1).2.head? = some 0 ∧
       (compute_inventory 100 1000000000 cfgExample.b 1 cfgExample.k 1).2.getLast? = some 1 ∧
       (compute_trading_speed 100 1000000000 cfgExample.b 1 cfgExample.k 1).2.head? = some 0 ∧
       (compute_trading_speed 100 1000000000 cfgExample.b 1 cfgExample.k 1).2.getLast? = some 1) := by
  have hmem : (1 : ℝ) ∈ cfgExample.phi := by simp [cfgExample]
  exact ⟨hmem, C10_orchestrator_fixed_parameters cfgExample 1 hmem⟩

end OptimalExecution
